import Mathlib

/-!
Verification development for the pygccxml `source_reader` module
(`src/pygccxml/parser/source_reader.py`).

The Python module is embedded shallowly:

* Paths and text lines are lists of characters (`Path := List Char`);
  Python string operations (`strip`, `rstrip`, `os.path.join`,
  `os.path.isabs`, `str.replace`) are given executable list-level
  definitions mirroring their POSIX behaviour on clean paths
  (no `..` segments, no symlinks, so `os.path.normpath` acts as the
  identity and `os.path.realpath` reduces to resolving a relative path
  against the process working directory, which the OS guarantees to be
  absolute).
* The declaration graph is a list of nodes indexed by position; alias
  sets (the mutable `aliases` attribute of class declarations) are an
  explicit map `Nat → List Nat` threaded through `bind_aliases`.
* Filesystem, temporary-file allocation, external-tool invocation and
  the declarations cache are an explicit `World` state record; the
  external tool and the XML scanner are oracles supplied as functions.
* Python exceptions become `Except` values; `try/finally` and
  `except ... raise` blocks become explicit state updates on both
  branches, exactly following the source's control flow.
-/

set_option maxRecDepth 4000

namespace SourceReader

abbrev Path := List Char

/-- Kinds of declaration nodes relevant to `source_reader.py`:
`namespace_t`, the class-like kinds (`class_types`), `typedef_t`,
and everything else. -/
inductive DeclKind where
  | namespaceKind
  | classKind
  | typedefKind
  | otherKind
deriving DecidableEq

/-- The part of a pygccxml type expression that `bind_aliases` inspects:
either a `declarated_t` reference to a declaration (by index) or any
other type expression. -/
inductive TypeRef where
  | declarated (target : Nat)
  | other
deriving DecidableEq

/-- A declaration node after linking: its kind, the type it aliases
(meaningful when the node is a typedef), and its enclosing scope. -/
structure DeclNode where
  kind : DeclKind
  ty : TypeRef
  parent : Option Nat
deriving DecidableEq

abbrev Graph := List DeclNode

def defaultNode : DeclNode := ⟨DeclKind.otherKind, TypeRef.other, none⟩

def declAt (g : Graph) (i : Nat) : DeclNode := g.getD i defaultNode

/-- Modelled from the spec: `pygccxml.declarations.remove_alias` is not
under `src/`; per spec §4.2 it chases "through intermediate aliases to
find the underlying declarated type".  Fuel bounds the chase so the
definition is total; `bind_aliases` below calls it with fuel `g.length`,
enough for any acyclic typedef chain. -/
def remove_alias (g : Graph) (fuel : Nat) (t : TypeRef) : TypeRef :=
  match fuel, t with
  | 0, t => t
  | Nat.succ f, TypeRef.declarated n =>
      if (declAt g n).kind = DeclKind.typedefKind then
        remove_alias g f (declAt g n).ty
      else
        TypeRef.declarated n
  | Nat.succ _, TypeRef.other => TypeRef.other

/-- The class a typedef binds to, following `bind_aliases` lines 41-46:
alias-chase the typedef's type; require the result to be a
`declarated_t`; require the referenced declaration to be class-like. -/
def aliasTarget (g : Graph) (i : Nat) : Option Nat :=
  match remove_alias g g.length (declAt g i).ty with
  | TypeRef.declarated n =>
      if (declAt g n).kind = DeclKind.classKind then some n else none
  | TypeRef.other => none

/-- Indices of the typedef declarations of the graph, in list order
(line 39: `[decl for decl in decls if isinstance(decl, typedef_t)]`). -/
def typedefIdxs (g : Graph) : List Nat :=
  (List.range g.length).filter fun i =>
    decide ((declAt g i).kind = DeclKind.typedefKind)

/-- Alias state: for each declaration index, its current `aliases` list
(a list of typedef indices). -/
abbrev Aliases := Nat → List Nat

def updateAl (a : Aliases) (k : Nat) (v : List Nat) : Aliases :=
  fun j => if j = k then v else a j

/-- One iteration of the `for decl in typedefs` loop of `bind_aliases`
(lines 40-50), acting on the pair (visited set, alias state). -/
def bindStep (g : Graph) (s : List Nat × Aliases) (td : Nat) :
    List Nat × Aliases :=
  match aliasTarget g td with
  | none => s
  | some cls =>
      if cls ∈ s.1 then (s.1, updateAl s.2 cls (s.2 cls ++ [td]))
      else (cls :: s.1, updateAl s.2 cls [td])

def bindAliasesOver (g : Graph) (tds : List Nat) (s : List Nat × Aliases) :
    List Nat × Aliases :=
  tds.foldl (bindStep g) s

/-- `bind_aliases` (lines 29-50): iterate over the typedefs in order with
an initially empty visited set, returning the final alias state. -/
def bind_aliases (g : Graph) (a0 : Aliases) : Aliases :=
  (bindAliasesOver g (typedefIdxs g) ([], a0)).2

/-- The typedefs among `tds` whose alias-chased target is declaration
`d`, in iteration order. -/
def targetsIn (g : Graph) (tds : List Nat) (d : Nat) : List Nat :=
  tds.filter fun i => decide (aliasTarget g i = some d)

/-- All typedefs of the graph resolving to declaration `d`, in the order
`bind_aliases` encounters them. -/
def typedefsResolvingTo (g : Graph) (d : Nat) : List Nat :=
  targetsIn g (typedefIdxs g) d

theorem targetsIn_nil (g : Graph) (d : Nat) : targetsIn g [] d = [] := rfl

theorem targetsIn_cons (g : Graph) (t : Nat) (tds : List Nat) (d : Nat) :
    targetsIn g (t :: tds) d =
      if aliasTarget g t = some d then t :: targetsIn g tds d
      else targetsIn g tds d := by
  simp [targetsIn, List.filter_cons]

/-- Invariant of the `bind_aliases` loop: after folding over `tds` from
state `(v, a)`, declaration `d`'s alias list is its old list extended by
the typedefs of `tds` targeting it when `d` was already visited, its old
list when no typedef of `tds` targets an unvisited `d`, and exactly the
typedefs of `tds` targeting it otherwise; and `d` ends up visited iff it
started visited or some typedef of `tds` targets it. -/
theorem bindAliasesOver_spec (g : Graph) (tds : List Nat) :
    ∀ (v : List Nat) (a : Aliases) (d : Nat),
      ((bindAliasesOver g tds (v, a)).2 d =
        if d ∈ v then a d ++ targetsIn g tds d
        else if targetsIn g tds d = [] then a d else targetsIn g tds d)
      ∧ (d ∈ (bindAliasesOver g tds (v, a)).1 ↔
          d ∈ v ∨ targetsIn g tds d ≠ []) := by
  induction tds with
  | nil =>
      intro v a d
      constructor
      · by_cases hv : d ∈ v <;> simp [bindAliasesOver, targetsIn_nil, hv]
      · simp [bindAliasesOver, targetsIn_nil]
  | cons t tds ih =>
      intro v a d
      have hfold : bindAliasesOver g (t :: tds) (v, a) =
          bindAliasesOver g tds (bindStep g (v, a) t) := rfl
      rcases htgt : aliasTarget g t with _ | cls
      · -- the typedef `t` binds to nothing: state unchanged
        have hstep : bindStep g (v, a) t = (v, a) := by
          simp [bindStep, htgt]
        have htl : targetsIn g (t :: tds) d = targetsIn g tds d := by
          rw [targetsIn_cons]
          simp [htgt]
        rw [hfold, hstep, htl]
        exact ih v a d
      · by_cases hvis : cls ∈ v
        · -- target already visited: append `t` to its aliases
          have hstep : bindStep g (v, a) t =
              (v, updateAl a cls (a cls ++ [t])) := by
            simp [bindStep, htgt, hvis]
          rw [hfold, hstep]
          rcases ih v (updateAl a cls (a cls ++ [t])) d with ⟨h1, h2⟩
          constructor
          · rw [h1]
            by_cases hd : d = cls
            · subst hd
              rw [targetsIn_cons]
              simp [htgt, hvis, updateAl]
            · have hne : aliasTarget g t ≠ some d := by
                rw [htgt]; intro hc; exact hd (Option.some.inj hc).symm
              rw [targetsIn_cons]
              simp only [hne, if_neg hne]
              by_cases hv : d ∈ v <;> simp [hv, updateAl, hd]
          · rw [h2, targetsIn_cons]
            by_cases hd : d = cls
            · subst hd; simp [htgt, hvis]
            · have hne : aliasTarget g t ≠ some d := by
                rw [htgt]; intro hc; exact hd (Option.some.inj hc).symm
              simp [if_neg hne]
        · -- first visit of the target: clear, then append `t`
          have hstep : bindStep g (v, a) t =
              (cls :: v, updateAl a cls [t]) := by
            simp [bindStep, htgt, hvis]
          rw [hfold, hstep]
          rcases ih (cls :: v) (updateAl a cls [t]) d with ⟨h1, h2⟩
          constructor
          · rw [h1]
            by_cases hd : d = cls
            · subst hd
              rw [targetsIn_cons]
              simp [htgt, hvis, updateAl]
            · have hne : aliasTarget g t ≠ some d := by
                rw [htgt]; intro hc; exact hd (Option.some.inj hc).symm
              rw [targetsIn_cons]
              simp only [if_neg hne]
              by_cases hv : d ∈ v <;> simp [hv, hd, updateAl]
          · rw [h2, targetsIn_cons]
            by_cases hd : d = cls
            · subst hd; simp [htgt, hvis]
            · have hne : aliasTarget g t ≠ some d := by
                rw [htgt]; intro hc; exact hd (Option.some.inj hc).symm
              simp [if_neg hne, hd]

/-- Closed form of `bind_aliases`: a declaration targeted by at least one
typedef ends with exactly the typedefs resolving to it, in encounter
order; a declaration targeted by none keeps its previous alias list. -/
theorem bind_aliases_eq (g : Graph) (a0 : Aliases) (d : Nat) :
    bind_aliases g a0 d =
      if typedefsResolvingTo g d = [] then a0 d
      else typedefsResolvingTo g d := by
  have h := (bindAliasesOver_spec g (typedefIdxs g) [] a0 d).1
  simp only [bind_aliases, typedefsResolvingTo]
  rw [h]
  simp

/-- `os.path.isabs` on POSIX: the path starts with a separator. -/
def isAbs (p : Path) : Bool := decide (p.headD ' ' = '/')

/-- `os.path.join` on POSIX for a clean left operand: an absolute right
operand wins, otherwise the parts are joined with a separator. -/
def joinPath (d p : Path) : Path := if isAbs p then p else d ++ '/' :: p

/-- `file_path.replace(r'\/', os.path.sep)` on POSIX: rewrite every
backslash-slash pair to a slash, left to right (line 395). -/
def replaceBS : Path → Path
  | '\\' :: '/' :: rest => '/' :: replaceBS rest
  | c :: rest => c :: replaceBS rest
  | [] => []

/-- Errors raised by the reader: `RuntimeError` for an unresolvable
source path (line 391), `gccxml_runtime_error_t` for a failed external
tool run (lines 264, 270), and scanner/linker failures. -/
inductive Err where
  | notFound (p : Path)
  | toolFailed
  | scanFailed
deriving DecidableEq

/-- `source_reader_t.__file_full_name` (lines 384-391) over a filesystem
given as the list of existing file paths: return the path itself if it
names an existing file, else the first search-directory join that does,
else raise. -/
def file_full_name (fs : List Path) (dirs : List Path) (p : Path) :
    Except Err Path :=
  if decide (p ∈ fs) then Except.ok p
  else
    match dirs.find? (fun d => decide (joinPath d p ∈ fs)) with
    | some d => Except.ok (joinPath d p)
    | none => Except.error (Err.notFound p)

/-- `os.path.realpath` on the clean, symlink-free paths of the model:
an absolute path is returned as is, a relative path is resolved against
the process working directory `cwd` (`os.getcwd()`, always absolute on
the OS side). -/
def realpathFrom (cwd p : Path) : Path :=
  if isAbs p then p else joinPath cwd p

/-- `source_reader_t.__produce_full_file` (lines 393-407): normalize the
separator escape, keep absolute paths as they are, otherwise resolve
the working-directory join through `os.path.realpath` — which
absolutizes even when the configured working directory is relative —
and keep the resolved path only when it exists (`os.path.normpath` acts
as the identity on the clean paths of the model). -/
def produce_full_file (fs : List Path) (cwd wd : Path) (p : Path) : Path :=
  let q := replaceBS p
  if isAbs q then q
  else
    let a := realpathFrom cwd (joinPath wd q)
    if decide (a ∈ fs) then a else q

/-- The configuration fields `source_reader_t` consults for the claims
under study; the configuration itself is the cache fingerprint (spec
§4.3: the fingerprint "matches bit-for-bit"). -/
structure Config where
  workingDirectory : Path
  includePaths : List Path
  ignoreOutput : Bool
deriving DecidableEq

/-- The search directory list built in `__init__` (lines 88-91): the
working directory first, then the configured include paths. -/
def searchDirs (cfg : Config) : List Path :=
  cfg.workingDirectory :: cfg.includePaths

/-- Observable behaviour of one external-tool run: the lines it writes
to stdout, its exit status, and whether a readable output file exists at
the requested output path after it terminates. -/
structure ToolRun where
  stdout : List (List Char)
  exit : Int
  produces : Bool

/-- Scanner output (the external `scanner_t` collaborator): the linked
declaration nodes and the file table from file id to path. -/
structure ScanOut where
  decls : List DeclNode
  files : List (Nat × Path)

/-- Modelled from the spec: `declarations_cache` is not under `src/`;
per spec §4.3 an entry stores the declarations and the contributing
files, here with the signature each file had at store time. -/
structure CEntry where
  decls : List DeclNode
  files : List (Path × Nat)

/-- Either the no-op `dummy_cache_t` (always miss, store is a no-op) or
a real cache following the spec §4.3 contract. -/
inductive CachePolicy where
  | dummy
  | real

/-- The mutable world: existing files, the temporary files allocated so
far, the temp-name counter, the number of external-tool invocations, the
cache content, the current content signature of each path, and the
process working directory (`os.getcwd()`). -/
structure World where
  fs : List Path
  temps : List Path
  tempCounter : Nat
  toolInvocations : Nat
  cache : List ((Path × Config) × CEntry)
  sig : Path → Nat
  procCwd : Path

def hSuffix : Path := ['.', 'h']

def xmlSuffix : Path := ['.', 'x', 'm', 'l']

/-- Temporary file names: `/tmp/` followed by a unique run of `x` and
the suffix.  Freshness mirrors `tempfile.mkstemp`, which never returns
the name of an existing file. -/
def tmpName (n : Nat) (suffix : Path) : Path :=
  ['/', 't', 'm', 'p', '/'] ++ List.replicate n 'x' ++ suffix

/-- `pygccxml.utils.create_temp_file_name`: allocate a fresh name and
create the (empty) file, as `tempfile.mkstemp` does. -/
def createTempW (w : World) (suffix : Path) : Path × World :=
  let t := tmpName w.tempCounter suffix
  (t, { w with fs := t :: w.fs, temps := w.temps ++ [t],
               tempCounter := w.tempCounter + 1 })

/-- `pygccxml.utils.remove_file_no_raise`: delete the path if present,
never raising. -/
def removeFileW (w : World) (p : Path) : World :=
  { w with fs := w.fs.filter fun q => decide (q ≠ p) }

/-- Modelled from the spec (§4.3): `cached_value` returns the stored
declarations only when the key (path plus configuration fingerprint)
matches an entry all of whose recorded files still exist with an
unchanged signature; the dummy cache always misses. -/
def cacheLookup (pol : CachePolicy) (w : World) (p : Path) (cfg : Config) :
    Option (List DeclNode) :=
  match pol with
  | CachePolicy.dummy => none
  | CachePolicy.real =>
      match w.cache.find? (fun e => decide (e.1 = (p, cfg))) with
      | none => none
      | some e =>
          if e.2.files.all
              (fun f => decide (f.1 ∈ w.fs) && decide (w.sig f.1 = f.2))
          then some e.2.decls
          else none

/-- Modelled from the spec (§4.3): `update` replaces any prior entry for
the key, recording each contributing file with its current signature;
the dummy cache does nothing. -/
def cacheStore (pol : CachePolicy) (w : World) (p : Path) (cfg : Config)
    (decls : List DeclNode) (files : List Path) : World :=
  match pol with
  | CachePolicy.dummy => w
  | CachePolicy.real =>
      { w with cache :=
          ((p, cfg), ⟨decls, files.map fun f => (f, w.sig f)⟩) ::
            w.cache.filter fun e => decide (e.1 ≠ (p, cfg)) }

/-- Python `str.isspace` characters relevant to `strip`/`rstrip`. -/
def pyIsSpace (c : Char) : Bool :=
  c = ' ' || c = '\t' || c = '\n' || c = '\r' || c = '\x0b' || c = '\x0c'

/-- Python `str.rstrip()`: drop trailing whitespace. -/
def pyRstrip (l : List Char) : List Char :=
  (l.reverse.dropWhile pyIsSpace).reverse

/-- Python `str.strip()`: drop leading and trailing whitespace. -/
def pyStrip (l : List Char) : List Char :=
  pyRstrip (l.dropWhile pyIsSpace)

/-- The drain loop of `create_xml_file` (lines 251-258): keep the
right-stripped form of every stdout line whose stripped form is
non-empty, in order. -/
def gccxmlReports (lines : List (List Char)) : List (List Char) :=
  (lines.filter fun l => !(pyStrip l).isEmpty).map pyRstrip

/-- `gccxml_msg` (line 261): the reports joined with `os.linesep`. -/
def gccxmlMsg (lines : List (List Char)) : List Char :=
  List.intercalate ['\n'] (gccxmlReports lines)

/-- The raise condition of `create_xml_file` (lines 262-272): with
`ignore_gccxml_output` set, raise exactly when the output file is
missing; otherwise raise when the joined stdout is non-empty, the exit
status is non-zero, or the output file is missing. -/
def createXmlFileRaises (ignore : Bool) (run : ToolRun)
    (outExists : Bool) : Bool :=
  if ignore then !outExists
  else !(gccxmlMsg run.stdout).isEmpty || !(run.exit == 0) || !outExists

/-- `source_reader_t.create_xml_file` (lines 217-276): pick the output
path (removing a supplied destination, else allocating a fresh temp
name), resolve the header when it is not absolute, run the external
tool, and raise on failure — removing the output file on every raising
path (line 274). -/
def create_xml_file (cfg : Config) (tool : Nat → ToolRun) (w : World)
    (header : Path) (dest : Option Path) : Except Err Path × World :=
  let xw : Path × World :=
    match dest with
    | some d => (d, removeFileW w d)
    | none => createTempW w xmlSuffix
  let xmlfile := xw.1
  let w1 := xw.2
  match (if isAbs header then Except.ok header
         else file_full_name w1.fs (searchDirs cfg) header :
         Except Err Path) with
  | Except.error e => (Except.error e, removeFileW w1 xmlfile)
  | Except.ok _ =>
      let run := tool w1.toolInvocations
      let w2 := { w1 with
        toolInvocations := w1.toolInvocations + 1,
        fs := if run.produces then xmlfile :: w1.fs
              else w1.fs.filter fun q => decide (q ≠ xmlfile) }
      if createXmlFileRaises cfg.ignoreOutput run
          (decide (xmlfile ∈ w2.fs))
      then (Except.error Err.toolFailed, removeFileW w2 xmlfile)
      else (Except.ok xmlfile, w2)

/-- `source_reader_t.create_xml_file_from_string` (lines 278-299):
materialize the content in a fresh temporary header, run
`create_xml_file`, and remove the header in the `finally` block on both
outcomes.  The content itself is opaque to the model (the tool is an
oracle), but the parameter is kept for the signature. -/
def create_xml_file_from_string (cfg : Config) (tool : Nat → ToolRun)
    (w : World) (_content : List Char) (dest : Option Path) :
    Except Err Path × World :=
  let hw := createTempW w hSuffix
  let r := create_xml_file cfg tool hw.2 hw.1 dest
  (r.1, removeFileW r.2 hw.1)

/-- `source_reader_t.__parse_xml_file` (lines 409-443): map the scanner
file table through `__produce_full_file`, then return the declarations
that are namespaces with no parent together with the file-table values.
The linker pass and the quirk patcher are external collaborators that
rewrite node contents in place; the alias pass is `bind_aliases` above
and does not change which nodes the scanner produced. -/
def parse_xml_file (fs : List Path) (cwd : Path) (cfg : Config)
    (so : ScanOut) : List DeclNode × List Path :=
  let files := so.files.map fun f =>
    (f.1, produce_full_file fs cwd cfg.workingDirectory f.2)
  (so.decls.filter fun d =>
      decide (d.kind = DeclKind.namespaceKind) && decide (d.parent = none),
   files.map fun f => f.2)

/-- `source_reader_t.read_gccxml_file` (lines 304-339): resolve the
source path, consult the cache (a cached empty list counts as a miss, as
`if not declarations` does), otherwise create the XML file, scan it,
store the result, and remove the XML temp file on every path on which it
was created. -/
def read_gccxml_file (cfg : Config) (tool : Nat → ToolRun)
    (scan : Path → Except Err ScanOut) (pol : CachePolicy) (w : World)
    (sourceFile : Path) : Except Err (List DeclNode) × World :=
  match file_full_name w.fs (searchDirs cfg) sourceFile with
  | Except.error e => (Except.error e, w)
  | Except.ok ffname =>
      let cached := (cacheLookup pol w ffname cfg).getD []
      if cached.isEmpty then
        match create_xml_file cfg tool w ffname none with
        | (Except.error e, w1) => (Except.error e, w1)
        | (Except.ok xml, w1) =>
            match scan xml with
            | Except.error e => (Except.error e, removeFileW w1 xml)
            | Except.ok so =>
                let r := parse_xml_file w1.fs w1.procCwd cfg so
                let w2 := cacheStore pol w1 ffname cfg r.1 r.2
                (Except.ok r.1, removeFileW w2 xml)
      else (Except.ok cached, w)

/-- `source_reader_t.read_string` (lines 366-382): materialize the
content in a fresh temporary header, run the file-based flow on it, and
remove the header on both the raising and the returning path. -/
def read_string (cfg : Config) (tool : Nat → ToolRun)
    (scan : Path → Except Err ScanOut) (pol : CachePolicy) (w : World)
    (_content : List Char) : Except Err (List DeclNode) × World :=
  let hw := createTempW w hSuffix
  let r := read_gccxml_file cfg tool scan pol hw.2 hw.1
  (r.1, removeFileW r.2 hw.1)

/-- `source_reader_t.read_xml_file` (lines 341-364): resolve the dump
path, consult the cache, otherwise scan the dump directly — no external
tool — and store the result with an empty contributing-file list
(line 359). -/
def read_xml_file (cfg : Config) (scan : Path → Except Err ScanOut)
    (pol : CachePolicy) (w : World) (dumpFile : Path) :
    Except Err (List DeclNode) × World :=
  match file_full_name w.fs (searchDirs cfg) dumpFile with
  | Except.error e => (Except.error e, w)
  | Except.ok ffname =>
      let cached := (cacheLookup pol w ffname cfg).getD []
      if cached.isEmpty then
        match scan ffname with
        | Except.error e => (Except.error e, w)
        | Except.ok so =>
            let r := parse_xml_file w.fs w.procCwd cfg so
            (Except.ok r.1, cacheStore pol w ffname cfg r.1 [])
      else (Except.ok cached, w)

/-- A linked graph with stale aliases: one class-like declaration,
no typedefs, and a leftover alias list `[1]` from a previous run. -/
def staleGraph : Graph := [⟨DeclKind.classKind, TypeRef.other, none⟩]

def staleAliases : Aliases := fun _ => [1]

/-- A chain example: declaration 0 is a class, declaration 1 a typedef
whose type is `declarated 0`, declaration 2 a typedef whose type is
`declarated 1` (an alias of an alias). -/
def chainGraph : Graph :=
  [⟨DeclKind.classKind, TypeRef.other, none⟩,
   ⟨DeclKind.typedefKind, TypeRef.declarated 0, none⟩,
   ⟨DeclKind.typedefKind, TypeRef.declarated 1, none⟩]

/-- A configuration with an absolute working directory, no include
paths, and `ignore_gccxml_output` set. -/
def cfgEx : Config := ⟨['/', 'w'], [], true⟩

/-- The same configuration with `ignore_gccxml_output` unset. -/
def cfgStrict : Config := ⟨['/', 'w'], [], false⟩

/-- An external tool that runs silently, exits 0 and produces its
output file. -/
def toolOk : Nat → ToolRun := fun _ => ⟨[], 0, true⟩

/-- An external tool that runs silently and exits 0 but leaves no
output file. -/
def toolNoFile : Nat → ToolRun := fun _ => ⟨[], 0, false⟩

/-- An external tool that exits 0 and produces its output file but
writes one non-blank line to stdout. -/
def toolChatty : Nat → ToolRun := fun _ => ⟨[['e', 'r', 'r']], 0, true⟩

/-- A root namespace node. -/
def nsNode : DeclNode := ⟨DeclKind.namespaceKind, TypeRef.other, none⟩

/-- A scanner oracle yielding one root namespace and no file table. -/
def scanNs : Path → Except Err ScanOut :=
  fun _ => Except.ok ⟨[nsNode], []⟩

def emptySig : Path → Nat := fun _ => 0

/-- The empty world. -/
def w0 : World := ⟨[], [], 0, 0, [], emptySig, ['/', 'c']⟩

/-- First `read_string` call on the empty world with the real cache. -/
def runString1 : Except Err (List DeclNode) × World :=
  read_string cfgEx toolOk scanNs CachePolicy.real w0 []

/-- Second `read_string` call, identical content and configuration. -/
def runString2 : Except Err (List DeclNode) × World :=
  read_string cfgEx toolOk scanNs CachePolicy.real runString1.2 []

/-- A successful `create_xml_file_from_string` run on the empty world. -/
def runFromString : Except Err Path × World :=
  create_xml_file_from_string cfgEx toolOk w0 [] none

/-- A scanner output whose file table holds one relative path `a`. -/
def soRel : ScanOut := ⟨[], [(1, ['a'])]⟩

/-- A world holding one dump file `/d` with an empty cache. -/
def wDump : World := ⟨[['/', 'd']], [], 0, 0, [], emptySig, ['/', 'c']⟩

/-- A `read_xml_file` run on the dump world (a cache miss). -/
def runDump : Except Err (List DeclNode) × World :=
  read_xml_file cfgEx scanNs CachePolicy.real wDump ['/', 'd']

/-- A later world sharing `runDump`'s cache but with the dump file
deleted and every file signature changed. -/
def wChanged : World :=
  ⟨[], [], 5, 7, runDump.2.cache, fun _ => 99, ['/', 'c']⟩

theorem isAbs_append (w r : Path) (h : isAbs w = true) :
    isAbs (w ++ r) = true := by
  cases w with
  | nil => simp [isAbs] at h
  | cons c t => simpa [isAbs] using h

theorem isAbs_joinPath (w p : Path) (h : isAbs w = true) :
    isAbs (joinPath w p) = true := by
  by_cases ha : isAbs p = true
  · simp [joinPath, ha]
  · simp only [joinPath, if_neg ha]
    exact isAbs_append w ('/' :: p) h

theorem isAbs_realpathFrom (cwd p : Path) (h : isAbs cwd = true) :
    isAbs (realpathFrom cwd p) = true := by
  unfold realpathFrom
  split
  · assumption
  · exact isAbs_joinPath cwd p h

example : typedefsResolvingTo chainGraph 0 = [1, 2] := by decide

example : bind_aliases chainGraph staleAliases 0 = [1, 2] := by decide

theorem pyRstrip_ne_nil (l : List Char) (h : pyStrip l ≠ []) :
    pyRstrip l ≠ [] := by
  intro hr
  apply h
  have hall : ∀ c ∈ l, pyIsSpace c := by
    have h1 : l.reverse.dropWhile pyIsSpace = [] := by
      have := congrArg List.reverse hr
      simpa [pyRstrip] using this
    intro c hc
    exact List.dropWhile_eq_nil_iff.mp h1 c (List.mem_reverse.mpr hc)
  have h2 : l.dropWhile pyIsSpace = [] := List.dropWhile_eq_nil_iff.mpr hall
  simp [pyStrip, h2, pyRstrip]

theorem intercalate_ne_nil (sep : List Char) (r : List Char)
    (rs : List (List Char)) (h : r ≠ []) :
    List.intercalate sep (r :: rs) ≠ [] := by
  cases rs with
  | nil => simpa [List.intercalate] using h
  | cons s t =>
      intro hc
      rw [List.intercalate] at hc
      simp only [List.intersperse, List.flatten] at hc
      rcases List.append_eq_nil.mp hc with ⟨hr, _⟩
      exact h hr

theorem gccxmlMsg_ne_nil (lines : List (List Char))
    (h : ∃ l ∈ lines, pyStrip l ≠ []) : gccxmlMsg lines ≠ [] := by
  obtain ⟨l, hl, hne⟩ := h
  have hmem : pyRstrip l ∈ gccxmlReports lines := by
    refine List.mem_map.mpr ⟨l, ?_, rfl⟩
    refine List.mem_filter.mpr ⟨hl, ?_⟩
    simpa using hne
  cases hrep : gccxmlReports lines with
  | nil => rw [hrep] at hmem; cases hmem
  | cons r rs =>
      have hrmem : r ∈ gccxmlReports lines := by
        rw [hrep]; exact List.mem_cons_self r rs
      obtain ⟨l', hl', hrl⟩ := List.mem_map.mp hrmem
      have hf : pyStrip l' ≠ [] := by
        simpa using (List.mem_filter.mp hl').2
      have hr : r ≠ [] := hrl ▸ pyRstrip_ne_nil l' hf
      unfold gccxmlMsg
      rw [hrep]
      exact intercalate_ne_nil _ r rs hr

theorem not_mem_filter_ne_self (l : List Path) (p : Path) :
    p ∉ l.filter fun q => decide (q ≠ p) := by
  intro h
  have := (List.mem_filter.mp h).2
  simp at this

theorem createXmlFileRaises_of_missing (ig : Bool) (run : ToolRun) :
    createXmlFileRaises ig run false = true := by
  cases ig <;> simp [createXmlFileRaises]

theorem removeFileW_fs (w : World) (p q : Path) :
    q ∈ (removeFileW w p).fs ↔ q ∈ w.fs ∧ q ≠ p := by
  simp [removeFileW, List.mem_filter]

theorem removeFileW_self (w : World) (p : Path) :
    p ∉ (removeFileW w p).fs := by
  intro h
  exact ((removeFileW_fs w p p).mp h).2 rfl

theorem removeFileW_temps (w : World) (p : Path) :
    (removeFileW w p).temps = w.temps := rfl

theorem cacheStore_temps (pol : CachePolicy) (w : World) (p : Path)
    (cfg : Config) (d : List DeclNode) (f : List Path) :
    (cacheStore pol w p cfg d f).temps = w.temps := by
  cases pol <;> rfl

theorem cacheStore_fs (pol : CachePolicy) (w : World) (p : Path)
    (cfg : Config) (d : List DeclNode) (f : List Path) :
    (cacheStore pol w p cfg d f).fs = w.fs := by
  cases pol <;> rfl

/-- The output path of `create_xml_file`: the supplied destination, or
the fresh temporary name it allocates. -/
def xmlOutPath (w : World) (dest : Option Path) : Path :=
  match dest with
  | none => tmpName w.tempCounter xmlSuffix
  | some d => d

/-- The temporary names `create_xml_file` allocates: one fresh output
name when no destination is supplied, none otherwise. -/
def newTempsOf (w : World) (dest : Option Path) : List Path :=
  match dest with
  | none => [tmpName w.tempCounter xmlSuffix]
  | some _ => []

/-- Behaviour of `create_xml_file` as seen by its callers: it extends
the temp log by the allocated output name exactly when no destination
was supplied; on every raising path the output file has been removed; on
success the returned path is the output path. -/
theorem create_xml_file_spec (cfg : Config) (tool : Nat → ToolRun)
    (w : World) (h : Path) (dest : Option Path) :
    (create_xml_file cfg tool w h dest).2.temps =
        w.temps ++ newTempsOf w dest
    ∧ (∀ e, (create_xml_file cfg tool w h dest).1 = Except.error e →
        xmlOutPath w dest ∉ (create_xml_file cfg tool w h dest).2.fs)
    ∧ (∀ y, (create_xml_file cfg tool w h dest).1 = Except.ok y →
        y = xmlOutPath w dest) := by
  refine ⟨?_, ?_, ?_⟩
  · cases dest with
    | none =>
        simp only [create_xml_file, createTempW, xmlOutPath, newTempsOf]
        repeat' split
        all_goals simp [removeFileW]
    | some d =>
        simp only [create_xml_file, xmlOutPath, newTempsOf]
        repeat' split
        all_goals simp [removeFileW]
  · cases dest with
    | none =>
        simp only [create_xml_file, createTempW, xmlOutPath]
        repeat' split
        all_goals intro e he
        all_goals first
          | exact removeFileW_self _ _
          | simp at he
    | some d =>
        simp only [create_xml_file, xmlOutPath]
        repeat' split
        all_goals intro e he
        all_goals first
          | exact removeFileW_self _ _
          | simp at he
  · cases dest with
    | none =>
        simp only [create_xml_file, createTempW, xmlOutPath]
        repeat' split
        all_goals intro y hy
        all_goals simp at hy
        all_goals exact hy.symm
    | some d =>
        simp only [create_xml_file, xmlOutPath]
        repeat' split
        all_goals intro y hy
        all_goals simp at hy
        all_goals exact hy.symm

/-- Any temporary file created during `read_gccxml_file` itself (the
external tool's output file) has been removed again by the time the call
returns, on success and on every raising path. -/
theorem read_gccxml_file_cleanup (cfg : Config) (tool : Nat → ToolRun)
    (scan : Path → Except Err ScanOut) (pol : CachePolicy) (w : World)
    (p : Path) (res : Except Err (List DeclNode)) (w2 : World)
    (heq : read_gccxml_file cfg tool scan pol w p = (res, w2))
    (q : Path) (hq : q ∈ w2.temps) (hnew : q ∉ w.temps) : q ∉ w2.fs := by
  rcases hres : file_full_name w.fs (searchDirs cfg) p with e | ffname
  · have hrun : read_gccxml_file cfg tool scan pol w p =
        (Except.error e, w) := by
      simp only [read_gccxml_file, hres]
    rw [hrun] at heq
    injection heq with h1 h2
    subst h2
    exact absurd hq hnew
  · by_cases hc : ((cacheLookup pol w ffname cfg).getD []).isEmpty = true
    · rcases hcx : create_xml_file cfg tool w ffname none with ⟨r1, w1⟩
      have ht : w1.temps = w.temps ++ [xmlOutPath w none] := by
        have h := (create_xml_file_spec cfg tool w ffname none).1
        rw [hcx] at h
        exact h
      rcases r1 with e1 | xml
      · have hrun : read_gccxml_file cfg tool scan pol w p =
            (Except.error e1, w1) := by
          simp only [read_gccxml_file, hres]
          rw [if_pos hc]
          simp only [hcx]
        rw [hrun] at heq
        injection heq with h1 h2
        subst h2
        rw [ht] at hq
        rcases List.mem_append.mp hq with h | h
        · exact absurd h hnew
        · have hqx : q = xmlOutPath w none := List.mem_singleton.mp h
          have hfst : (create_xml_file cfg tool w ffname none).1 =
              Except.error e1 := by rw [hcx]
          have herr :=
            (create_xml_file_spec cfg tool w ffname none).2.1 e1 hfst
          rw [hcx] at herr
          subst hqx
          exact herr
      · have hfst : (create_xml_file cfg tool w ffname none).1 =
            Except.ok xml := by rw [hcx]
        have hxml : xml = xmlOutPath w none :=
          (create_xml_file_spec cfg tool w ffname none).2.2 xml hfst
        rcases hscan : scan xml with e2 | so
        · have hrun : read_gccxml_file cfg tool scan pol w p =
              (Except.error e2, removeFileW w1 xml) := by
            simp only [read_gccxml_file, hres]
            rw [if_pos hc]
            simp only [hcx, hscan]
          rw [hrun] at heq
          injection heq with h1 h2
          subst h2
          have hq2 : q ∈ w1.temps := by
            have h := hq
            rw [removeFileW_temps] at h
            exact h
          rw [ht] at hq2
          rcases List.mem_append.mp hq2 with h | h
          · exact absurd h hnew
          · have hqx : q = xmlOutPath w none := List.mem_singleton.mp h
            rw [hqx, ← hxml]
            exact removeFileW_self _ _
        · have hrun : read_gccxml_file cfg tool scan pol w p =
              (Except.ok (parse_xml_file w1.fs w1.procCwd cfg so).1,
                removeFileW (cacheStore pol w1 ffname cfg
                  (parse_xml_file w1.fs w1.procCwd cfg so).1
                  (parse_xml_file w1.fs w1.procCwd cfg so).2) xml) := by
            simp only [read_gccxml_file, hres]
            rw [if_pos hc]
            simp only [hcx, hscan]
          rw [hrun] at heq
          injection heq with h1 h2
          subst h2
          have hq2 : q ∈ w1.temps := by
            have h := hq
            rw [removeFileW_temps, cacheStore_temps] at h
            exact h
          rw [ht] at hq2
          rcases List.mem_append.mp hq2 with h | h
          · exact absurd h hnew
          · have hqx : q = xmlOutPath w none := List.mem_singleton.mp h
            rw [hqx, ← hxml]
            exact removeFileW_self _ _
    · have hrun : read_gccxml_file cfg tool scan pol w p =
          (Except.ok ((cacheLookup pol w ffname cfg).getD []), w) := by
        simp only [read_gccxml_file, hres]
        rw [if_neg hc]
      rw [hrun] at heq
      injection heq with h1 h2
      subst h2
      exact absurd hq hnew

/-- C2 counterexample: the claim asserts that after `bind_aliases` every
class-like declaration's alias set equals exactly the typedefs resolving
to it; on a graph whose only declaration is class-like, carries stale
aliases `[1]`, and is the target of no typedef, `bind_aliases` leaves
the stale list in place, so the final alias set differs from the (empty)
list of typedefs resolving to it. -/
theorem claim_C2_counterexample :
    (declAt staleGraph 0).kind = DeclKind.classKind ∧
      bind_aliases staleGraph staleAliases 0 ≠
        typedefsResolvingTo staleGraph 0 := by
  decide

/-- C2 (amended): after `bind_aliases`, a declaration targeted by at
least one typedef holds exactly the typedefs resolving to it, in the
order encountered (its prior alias set having been cleared on first
visit, and typedefs whose alias-chased type is not a declarated
reference to a class-like declaration contributing nothing); a
declaration targeted by no typedef keeps its previous alias set
unchanged. -/
theorem claim_C2_alias_binding (g : Graph) (a0 : Aliases) (d : Nat) :
    bind_aliases g a0 d =
      if typedefsResolvingTo g d = [] then a0 d
      else typedefsResolvingTo g d :=
  bind_aliases_eq g a0 d

/-- C3: `bind_aliases` is idempotent — running it a second time over the
same declaration list leaves every declaration's alias set equal to what
a single run produces. -/
theorem claim_C3_idempotent (g : Graph) (a0 : Aliases) (d : Nat) :
    bind_aliases g (bind_aliases g a0) d = bind_aliases g a0 d := by
  rw [bind_aliases_eq g (bind_aliases g a0) d, bind_aliases_eq g a0 d]
  by_cases h : typedefsResolvingTo g d = [] <;> simp [h, bind_aliases_eq]

/-- C6: whenever no readable output file exists at the requested output
path after the external tool terminates, `create_xml_file` raises, even
when the exit status indicates success and regardless of the
`ignore_gccxml_output` setting (both branches of lines 262-272 test for
the file). -/
theorem claim_C6_missing_output (cfg : Config) (tool : Nat → ToolRun)
    (w : World) (h : Path) (dest : Option Path)
    (habs : isAbs h = true)
    (hprod : (tool w.toolInvocations).produces = false) :
    (create_xml_file cfg tool w h dest).1 = Except.error Err.toolFailed := by
  cases dest with
  | none =>
      simp only [create_xml_file, habs, if_true, hprod, createTempW]
      simp only [if_false, Bool.false_eq_true]
      rw [decide_eq_false (not_mem_filter_ne_self _ _)]
      simp [createXmlFileRaises_of_missing, hprod]
  | some d =>
      simp only [create_xml_file, habs, if_true, hprod, removeFileW]
      simp only [if_false, Bool.false_eq_true]
      rw [decide_eq_false (not_mem_filter_ne_self _ _)]
      simp [createXmlFileRaises_of_missing, hprod]

theorem claim_C6_missing_output_witness :
    isAbs ['/', 'h'] = true ∧
      (toolNoFile w0.toolInvocations).produces = false ∧
      (create_xml_file cfgEx toolNoFile w0 ['/', 'h'] none).1 =
        Except.error Err.toolFailed :=
  ⟨by decide, by decide,
    claim_C6_missing_output cfgEx toolNoFile w0 ['/', 'h'] none
      (by decide) (by decide)⟩

/-- C10: with `ignore_gccxml_output` disabled, `create_xml_file` raises
whenever the tool wrote any non-blank line to stdout, even if the exit
status is 0 and the output file exists (line 268: the joined report
string is tested first). -/
theorem claim_C10_stdout_line_error (cfg : Config) (tool : Nat → ToolRun)
    (w : World) (h : Path) (dest : Option Path)
    (habs : isAbs h = true)
    (hignore : cfg.ignoreOutput = false)
    (hline : ∃ l ∈ (tool w.toolInvocations).stdout, pyStrip l ≠ []) :
    (create_xml_file cfg tool w h dest).1 = Except.error Err.toolFailed := by
  have hmsg : gccxmlMsg (tool w.toolInvocations).stdout ≠ [] :=
    gccxmlMsg_ne_nil _ hline
  have hempty : (gccxmlMsg (tool w.toolInvocations).stdout).isEmpty = false :=
    List.isEmpty_eq_false.mpr hmsg
  cases dest with
  | none =>
      simp [create_xml_file, habs, hignore, createXmlFileRaises, createTempW,
        hempty]
  | some d =>
      simp [create_xml_file, habs, hignore, createXmlFileRaises, removeFileW,
        hempty]

theorem claim_C10_stdout_line_error_witness :
    isAbs ['/', 'h'] = true ∧ cfgStrict.ignoreOutput = false ∧
      (create_xml_file cfgStrict toolChatty w0 ['/', 'h'] none).1 =
        Except.error Err.toolFailed :=
  ⟨by decide, by decide,
    claim_C10_stdout_line_error cfgStrict toolChatty w0 ['/', 'h'] none
      (by decide) (by decide)
      ⟨['e', 'r', 'r'], by decide, by decide⟩⟩

/-- C4: the declaration list returned by `__parse_xml_file` contains
exactly the scanned declarations that are namespace-kind and have no
parent scope (lines 438-442); every other declaration is excluded from
the returned list. -/
theorem claim_C4_root_namespaces (fs : List Path) (cwd : Path)
    (cfg : Config) (so : ScanOut) (d : DeclNode) :
    d ∈ (parse_xml_file fs cwd cfg so).1 ↔
      d ∈ so.decls ∧ d.kind = DeclKind.namespaceKind ∧ d.parent = none := by
  simp [parse_xml_file, List.mem_filter, and_assoc]

theorem claim_C4_root_namespaces_witness :
    nsNode ∈ (parse_xml_file [] ['/', 'c'] cfgEx ⟨[nsNode], []⟩).1 :=
  (claim_C4_root_namespaces [] ['/', 'c'] cfgEx ⟨[nsNode], []⟩ nsNode).mpr
    ⟨by decide, rfl, rfl⟩

/-- C5 counterexample: the claim says read-from-path resolves its
argument "to an absolute location"; `__file_full_name` on a path that
names an existing file returns the path as given — here the relative
path `a` — so the resolved location is not absolute. -/
theorem claim_C5_counterexample :
    file_full_name [['a']] (searchDirs cfgEx) ['a'] = Except.ok ['a'] ∧
      isAbs ['a'] = false := by
  constructor
  · rfl
  · rfl

/-- C5 (amended): `__file_full_name` fails with the not-found error
exactly when the path does not name an existing file and no search
directory (working directory first, then the include paths) contains it
— the returned location, when found, need not be absolute — and on that
failure `read_gccxml_file` propagates the error with the world
unchanged, so the external tool is never invoked. -/
theorem claim_C5_not_found_no_invocation (cfg : Config)
    (tool : Nat → ToolRun) (scan : Path → Except Err ScanOut)
    (pol : CachePolicy) (w : World) (p : Path) :
    (file_full_name w.fs (searchDirs cfg) p =
        Except.error (Err.notFound p) ↔
      p ∉ w.fs ∧ ∀ d ∈ searchDirs cfg, joinPath d p ∉ w.fs)
    ∧ (file_full_name w.fs (searchDirs cfg) p =
        Except.error (Err.notFound p) →
        read_gccxml_file cfg tool scan pol w p =
          (Except.error (Err.notFound p), w)) := by
  constructor
  · constructor
    · intro he
      by_cases hp : p ∈ w.fs
      · simp [file_full_name, hp] at he
      · refine ⟨hp, ?_⟩
        intro d hd hj
        rcases hfind : (searchDirs cfg).find?
            (fun x => decide (joinPath x p ∈ w.fs)) with _ | x
        · have := List.find?_eq_none.mp hfind d hd
          simp at this
          exact this hj
        · simp [file_full_name, hp, hfind] at he
    · rintro ⟨hp, hall⟩
      have hfind : (searchDirs cfg).find?
          (fun x => decide (joinPath x p ∈ w.fs)) = none := by
        refine List.find?_eq_none.mpr ?_
        intro x hx
        simpa using hall x hx
      simp [file_full_name, hp, hfind]
  · intro he
    unfold read_gccxml_file
    rw [he]

theorem claim_C5_not_found_no_invocation_witness :
    read_gccxml_file cfgEx toolOk scanNs CachePolicy.real w0 ['a'] =
      (Except.error (Err.notFound ['a']), w0) :=
  (claim_C5_not_found_no_invocation cfgEx toolOk scanNs
    CachePolicy.real w0 ['a']).2 (by rfl)

/-- C8 counterexample: the claim says every path in the file table is
exposed in absolute form; `__produce_full_file` on the relative path `a`
whose working-directory join does not exist returns `a` unchanged, so
the contributing-files list of `__parse_xml_file` exposes a relative
path. -/
theorem claim_C8_counterexample :
    (parse_xml_file w0.fs w0.procCwd cfgEx soRel).2 = [['a']] ∧
      isAbs ['a'] = false := by
  constructor
  · rfl
  · rfl

/-- C8 (amended): a file-table path is rewritten to absolute form when
it is already absolute (after separator normalization) or when its
realpath-resolved working-directory join exists on disk —
`os.path.realpath` absolutizes against the process working directory
(always absolute), so this covers relative configured working
directories as well; otherwise the original, possibly relative, path is
exposed unchanged.  The contributing-files list returned by
`__parse_xml_file` is exactly the file table mapped through
`__produce_full_file`. -/
theorem claim_C8_absolute_normalization (fs : List Path)
    (cwd wd p : Path) (cfg : Config) (so : ScanOut)
    (hcwd : isAbs cwd = true)
    (hex : isAbs (replaceBS p) = true ∨
      realpathFrom cwd (joinPath wd (replaceBS p)) ∈ fs) :
    isAbs (produce_full_file fs cwd wd p) = true ∧
      (parse_xml_file fs cwd cfg so).2 =
        so.files.map fun f =>
          produce_full_file fs cwd cfg.workingDirectory f.2 := by
  constructor
  · unfold produce_full_file
    by_cases h1 : isAbs (replaceBS p) = true
    · simp [h1]
    · rcases hex with h | h
      · exact absurd h h1
      · simp only [h1, Bool.false_eq_true, if_false, h, decide_True,
          if_true]
        exact isAbs_realpathFrom cwd _ hcwd
  · simp [parse_xml_file, List.map_map]

theorem claim_C8_absolute_normalization_witness :
    isAbs (produce_full_file [['/', 'c', '/', 'w', '/', 'a']] ['/', 'c']
      ['w'] ['a']) = true :=
  (claim_C8_absolute_normalization [['/', 'c', '/', 'w', '/', 'a']]
    ['/', 'c'] ['w'] ['a'] cfgEx soRel (by decide)
    (Or.inr (by decide))).1

/-- C9: a `read_xml_file` cache miss stores its entry with an empty
contributing-file list (line 359 passes `[]` to `update`), so any later
lookup of the same dump path and configuration on a world with that
cache succeeds — regardless of the filesystem state or of any file
signature in that later world. -/
theorem claim_C9_dump_cache_files_empty (cfg : Config)
    (scan : Path → Except Err ScanOut) (w : World) (dump ffname : Path)
    (so : ScanOut)
    (hres : file_full_name w.fs (searchDirs cfg) dump = Except.ok ffname)
    (hmiss : (cacheLookup CachePolicy.real w ffname cfg).getD [] = [])
    (hscan : scan ffname = Except.ok so) :
    (read_xml_file cfg scan CachePolicy.real w dump).1 =
        Except.ok (parse_xml_file w.fs w.procCwd cfg so).1
    ∧ (read_xml_file cfg scan CachePolicy.real w dump).2.cache =
        ((ffname, cfg), ⟨(parse_xml_file w.fs w.procCwd cfg so).1, []⟩) ::
          w.cache.filter (fun e => decide (e.1 ≠ (ffname, cfg)))
    ∧ ∀ w2 : World,
        w2.cache = (read_xml_file cfg scan CachePolicy.real w dump).2.cache →
        cacheLookup CachePolicy.real w2 ffname cfg =
          some (parse_xml_file w.fs w.procCwd cfg so).1 := by
  have hrun : read_xml_file cfg scan CachePolicy.real w dump =
      (Except.ok (parse_xml_file w.fs w.procCwd cfg so).1,
        cacheStore CachePolicy.real w ffname cfg
          (parse_xml_file w.fs w.procCwd cfg so).1 []) := by
    unfold read_xml_file
    rw [hres]
    simp only [hmiss, List.isEmpty_nil, if_true, hscan]
  have hcache : (read_xml_file cfg scan CachePolicy.real w dump).2.cache =
      ((ffname, cfg), ⟨(parse_xml_file w.fs w.procCwd cfg so).1, []⟩) ::
        w.cache.filter (fun e => decide (e.1 ≠ (ffname, cfg))) := by
    rw [hrun]
    rfl
  refine ⟨by rw [hrun], hcache, ?_⟩
  intro w2 hw2
  rw [hcache] at hw2
  unfold cacheLookup
  rw [hw2, List.find?_cons_of_pos _ (by simp)]
  simp

theorem claim_C9_dump_cache_files_empty_witness :
    cacheLookup CachePolicy.real wChanged ['/', 'd'] cfgEx =
      some (parse_xml_file wDump.fs wDump.procCwd cfgEx ⟨[nsNode], []⟩).1 :=
  (claim_C9_dump_cache_files_empty cfgEx scanNs wDump ['/', 'd']
    ['/', 'd'] ⟨[nsNode], []⟩ (by rfl) (by rfl) (by rfl)).2.2
    wChanged (by rfl)

/-- C1: evaluating two sequential `read_string` calls with identical
content and configuration against the real (non-dummy) cache: each call
materializes the content in a fresh temporary header whose path is the
cache key, so the second call misses the cache and the external tool is
invoked twice — once per call — not once, contradicting the claim (the
second call still succeeds and returns the parsed declarations). -/
theorem claim_C1_tool_invoked_twice :
    runString1.2.toolInvocations = 1 ∧
      runString2.2.toolInvocations = 2 ∧
      runString2.1 = Except.ok [nsNode] := by
  refine ⟨rfl, rfl, rfl⟩

/-- C7 counterexample: the claim says every temporary file created for
the external tool's output is removed on every exit path of
`create_xml_file_from_string`; on its success path the tool's output
file is the return value and is left in place, still present in the
filesystem at exit. -/
theorem claim_C7_counterexample :
    runFromString.1 = Except.ok (tmpName 1 xmlSuffix) ∧
      tmpName 1 xmlSuffix ∈ runFromString.2.temps ∧
      tmpName 1 xmlSuffix ∈ runFromString.2.fs := by
  refine ⟨rfl, by decide, by decide⟩

/-- C7 (amended): `read_string` removes every temporary file it caused
to be created (the content header and the tool's output file) on every
exit path; `create_xml_file_from_string` removes its content header on
every exit path and the tool's output file on every raising path, but on
success the output file survives — it is exactly the returned path. -/
theorem claim_C7_temp_cleanup (cfg : Config) (tool : Nat → ToolRun)
    (scan : Path → Except Err ScanOut) (pol : CachePolicy)
    (w w' : World) (c : List Char) (dest : Option Path) :
    (∀ q, q ∈ (read_string cfg tool scan pol w c).2.temps →
      q ∉ w.temps → q ∉ (read_string cfg tool scan pol w c).2.fs)
    ∧ (∀ q, q ∈ (create_xml_file_from_string cfg tool w' c dest).2.temps →
        q ∉ w'.temps →
        q ∈ (create_xml_file_from_string cfg tool w' c dest).2.fs →
        (create_xml_file_from_string cfg tool w' c dest).1 =
          Except.ok q) := by
  constructor
  · intro q hq hnew
    rcases hrg : read_gccxml_file cfg tool scan pol
        (createTempW w hSuffix).2 (createTempW w hSuffix).1 with ⟨res, w2⟩
    have hrs : read_string cfg tool scan pol w c =
        (res, removeFileW w2 (createTempW w hSuffix).1) := by
      simp only [read_string, hrg]
    rw [hrs] at hq ⊢
    have hq2 : q ∈ w2.temps := hq
    by_cases hqh : q = (createTempW w hSuffix).1
    · rw [hqh]
      exact removeFileW_self _ _
    · intro hmem
      have hmem2 : q ∈ w2.fs :=
        ((removeFileW_fs w2 (createTempW w hSuffix).1 q).mp hmem).1
      have hnew2 : q ∉ (createTempW w hSuffix).2.temps := by
        intro hcon
        have hcon2 : q ∈ w.temps ++ [tmpName w.tempCounter hSuffix] := hcon
        rcases List.mem_append.mp hcon2 with h | h
        · exact hnew h
        · exact hqh (List.mem_singleton.mp h)
      exact read_gccxml_file_cleanup cfg tool scan pol
        (createTempW w hSuffix).2 (createTempW w hSuffix).1 res w2 hrg q
        hq2 hnew2 hmem2
  · intro q hq hnew hmem
    rcases hcx : create_xml_file cfg tool (createTempW w' hSuffix).2
        (createTempW w' hSuffix).1 dest with ⟨r1, w1⟩
    have hcs : create_xml_file_from_string cfg tool w' c dest =
        (r1, removeFileW w1 (createTempW w' hSuffix).1) := by
      simp only [create_xml_file_from_string, hcx]
    rw [hcs] at hq hmem ⊢
    have hq2 : q ∈ w1.temps := hq
    have hmem2 :=
      (removeFileW_fs w1 (createTempW w' hSuffix).1 q).mp hmem
    have ht := (create_xml_file_spec cfg tool (createTempW w' hSuffix).2
        (createTempW w' hSuffix).1 dest).1
    rw [hcx] at ht
    have ht2 : w1.temps = (createTempW w' hSuffix).2.temps ++
        newTempsOf (createTempW w' hSuffix).2 dest := ht
    rw [ht2] at hq2
    rcases List.mem_append.mp hq2 with h | h
    · have h2 : q ∈ w'.temps ++ [tmpName w'.tempCounter hSuffix] := h
      rcases List.mem_append.mp h2 with h3 | h3
      · exact absurd h3 hnew
      · exact absurd (List.mem_singleton.mp h3) hmem2.2
    · cases dest with
      | some d => exact absurd h (List.not_mem_nil q)
      | none =>
          have hqx : q = xmlOutPath (createTempW w' hSuffix).2 none :=
            List.mem_singleton.mp h
          rcases r1 with e1 | y
          · have hfst : (create_xml_file cfg tool
                (createTempW w' hSuffix).2 (createTempW w' hSuffix).1
                none).1 = Except.error e1 := by rw [hcx]
            have herr := (create_xml_file_spec cfg tool
              (createTempW w' hSuffix).2 (createTempW w' hSuffix).1
              none).2.1 e1 hfst
            rw [hcx] at herr
            rw [← hqx] at herr
            exact absurd hmem2.1 herr
          · have hfst : (create_xml_file cfg tool
                (createTempW w' hSuffix).2 (createTempW w' hSuffix).1
                none).1 = Except.ok y := by rw [hcx]
            have hy := (create_xml_file_spec cfg tool
              (createTempW w' hSuffix).2 (createTempW w' hSuffix).1
              none).2.2 y hfst
            show Except.ok y = Except.ok q
            rw [hy, ← hqx]

theorem claim_C7_temp_cleanup_witness :
    tmpName 0 hSuffix ∉ runString1.2.fs :=
  (claim_C7_temp_cleanup cfgEx toolOk scanNs CachePolicy.real w0 w0 []
    none).1 (tmpName 0 hSuffix) (by decide) (by decide)

end SourceReader
